import Mathlib

/-!
Shallow embedding of the authorization and signing-session slice of
stacks-transactions-js (src/src/authorization.ts and src/src/signer.ts).

Hex strings of the source are modelled throughout as lists of byte values
(one Nat per byte); the empty string is the empty list; a field that may be
undefined at runtime is an Option. Collaborator modules that the reviewed
slice imports but that are outside src (constants, utils, keys, types,
transaction, the vendored hash) are modelled from the spec, each marked by a
doc comment starting with the words Modelled from the spec.
-/

namespace StacksTx

/-- Modelled from the spec: constants.RECOVERABLE_ECDSA_SIG_LENGTH_BYTES
(constants.ts is outside the reviewed slice); the spec fixes recoverable
signatures at exactly 65 bytes. -/
def recoverableEcdsaSigLengthBytes : Nat := 65

/-- Modelled from the spec: constants.AddressHashMode byte value for the
single-signature P2PKH layout. Only the distinctness of the four byte values
and the grouping into single-key and threshold modes matter. -/
def serializeP2PKH : Nat := 0

/-- Modelled from the spec: constants.AddressHashMode byte value for the
multi-signature P2SH layout. -/
def serializeP2SH : Nat := 1

/-- Modelled from the spec: constants.AddressHashMode byte value for the
single-signature P2WPKH layout. -/
def serializeP2WPKH : Nat := 2

/-- Modelled from the spec: constants.AddressHashMode byte value for the
multi-signature P2WSH layout. -/
def serializeP2WSH : Nat := 3

/-- Modelled from the spec: constants.PubKeyEncoding byte value Compressed. -/
def pubKeyEncodingCompressed : Nat := 0

/-- Modelled from the spec: constants.PubKeyEncoding byte value Uncompressed. -/
def pubKeyEncodingUncompressed : Nat := 1

/-- Modelled from the spec: constants.AuthType byte value Standard (0x04 per
the external-interface table of the spec). -/
def authTypeStandard : Nat := 4

/-- Modelled from the spec: constants.AuthType byte value Sponsored (0x05 per
the external-interface table of the spec). -/
def authTypeSponsored : Nat := 5

/-- The errors the reviewed slice can raise, one constructor per distinct
throw site: the sighash material length guard, the signature length check of
the MessageSignature constructor, and the two signing-session guards. -/
inductive CodeError
  | invalidSigHashLength
  | invalidSignature
  | overlapSign
  | oversign
  deriving DecidableEq

/-- Modelled from the spec: utils.bigIntToHexString (utils.ts is outside the
reviewed slice) — big-endian unsigned encoding of a value into a fixed number
of bytes. -/
def bigIntToBytes : Nat → Nat → List Nat
  | _, 0 => []
  | n, w + 1 => bigIntToBytes (n / 256) w ++ [n % 256]

/-- Modelled from the spec: utils.hexStringToBigInt (utils.ts is outside the
reviewed slice) — big-endian unsigned decoding of a byte list. -/
def bytesToBigInt (bs : List Nat) : Nat :=
  bs.foldl (fun a b => a * 256 + b) 0

/-- Modelled from the spec: the external 32-byte hash primitive (the vendored
sha512_256 is outside the reviewed slice; the spec treats it as an opaque
deterministic function with 32-byte output, which are the only properties
used here). -/
def hash32 (input : List Nat) : List Nat :=
  (List.range 32).map fun i => input.foldl (fun a b => (a * 31 + b) % 256) i

/-- Modelled from the spec: a 20-byte hash used by the external address
derivation (outside the reviewed slice); opaque deterministic function with
20-byte output. -/
def hash20 (input : List Nat) : List Nat :=
  (List.range 20).map fun i => input.foldl (fun a b => (a * 33 + b) % 256) i

/-- Modelled from the spec: utils.BufferReader fixed-width read (utils.ts is
outside the reviewed slice); returns the bytes read and the remaining
input, or none when the input is too short. -/
def readBytes (n : Nat) (input : List Nat) : Option (List Nat × List Nat) :=
  if n ≤ input.length then some (input.take n, input.drop n) else none

/-- The signature value: a hex string or undefined
(src/src/authorization.ts lines 37-72). -/
structure MessageSignature where
  signature : Option (List Nat)
  deriving DecidableEq

/-- The MessageSignature constructor (src/src/authorization.ts lines 40-49):
the length check runs only when the argument is truthy, that is present and
not the empty string; the field is then assigned the argument unchanged. An
absent argument is none; the empty string is the empty list. -/
def MessageSignature.make (sig : Option (List Nat)) : Except CodeError MessageSignature :=
  match sig with
  | none => .ok { signature := none }
  | some s =>
    if s = [] then .ok { signature := some s }
    else if s.length ≠ recoverableEcdsaSigLengthBytes then .error .invalidSignature
    else .ok { signature := some s }

/-- MessageSignature.empty (src/src/authorization.ts lines 51-56): the
65-byte all-zero sentinel. -/
def MessageSignature.empty : MessageSignature :=
  { signature := some (List.replicate recoverableEcdsaSigLengthBytes 0) }

/-- MessageSignature.serialize (src/src/authorization.ts lines 62-66):
appends the signature hex string; an undefined field makes the runtime
throw, modelled as none. -/
def MessageSignature.serialize (m : MessageSignature) : Option (List Nat) :=
  m.signature

/-- MessageSignature.deserialize (src/src/authorization.ts lines 68-70):
reads exactly 65 bytes. -/
def MessageSignature.deserialize (input : List Nat) :
    Option (MessageSignature × List Nat) :=
  (readBytes recoverableEcdsaSigLengthBytes input).map fun p =>
    ({ signature := some p.1 }, p.2)

/-- An address value: version byte and 20-byte hash (types.ts is outside the
reviewed slice; only these two fields are exercised here). -/
structure Address where
  version : Nat
  data : List Nat
  deriving DecidableEq

/-- Address.fromData as used at src/src/authorization.ts line 212. -/
def Address.fromData (version : Nat) (data : List Nat) : Address :=
  { version, data }

/-- Modelled from the spec: the external address derivation
addressFromPublicKeys(version, mode, threshold, keys) returning a 20-byte
hash address (types.ts and the hashing it uses are outside the reviewed
slice). -/
def Address.fromPublicKeys (version mode threshold : Nat)
    (keys : List (List Nat)) : Address :=
  { version, data := hash20 ([mode, threshold] ++ keys.foldl (fun a k => a ++ k) []) }

/-- Modelled from the spec: StacksPublicKey.compressed (keys.ts is outside
the reviewed slice); a compressed public key is 33 bytes. -/
def publicKeyCompressed (pubKey : List Nat) : Bool :=
  pubKey.length == 33

/-- Modelled from the spec: the external signing primitive
sign(hash) returning a 65-byte recoverable signature (keys.ts is outside the
reviewed slice). Deterministic; the leading recovery byte is fixed nonzero in
the model, reflecting that a valid ECDSA signature (nonzero r and s) is never
the all-zero sentinel. -/
def privateKeySign (privateKey hash : List Nat) : List Nat :=
  1 :: (hash32 (privateKey ++ hash) ++ hash32 (hash ++ 0 :: privateKey))

/-- Modelled from the spec: StacksPrivateKey.getPublicKey (keys.ts is outside
the reviewed slice); the model yields a 33-byte compressed key. -/
def getPublicKey (privateKey : List Nat) : List Nat :=
  2 :: hash32 privateKey

/-- Tag making the class of a spending-condition object explicit, standing in
for the dynamic dispatch of the source hierarchy: the base class, the
single-signature subclass (src lines 229-243), and the empty multi-signature
subclass (src lines 245-247). -/
inductive CondKind
  | base
  | singleSig
  | multiSig
  deriving DecidableEq

/-- The spending-condition record (src/src/authorization.ts lines 74-81).
Fields the source may leave undefined are Options; signaturesRequired is set
only by the single-signature subclass constructor. -/
structure SpendingCondition where
  kind : CondKind
  addressHashMode : Nat
  signerAddress : Address
  nonce : Nat
  feeRate : Nat
  pubKeyEncoding : Option Nat
  signature : MessageSignature
  signaturesRequired : Option Nat
  deriving DecidableEq

/-- The SpendingCondition constructor (src/src/authorization.ts lines
83-106) for the modelled case in which every argument is supplied: the
signer address is derived once from the mode and public key, the key
encoding from whether the key is compressed, and the signature slot starts
as the empty sentinel. signaturesRequired is left unset. -/
def SpendingCondition.make (addressHashMode : Nat) (pubKey : List Nat)
    (nonce feeRate : Nat) : SpendingCondition :=
  { kind := .base
    addressHashMode
    signerAddress := Address.fromPublicKeys 0 addressHashMode 1 [pubKey]
    nonce
    feeRate
    pubKeyEncoding := some (if publicKeyCompressed pubKey then
      pubKeyEncodingCompressed else pubKeyEncodingUncompressed)
    signature := MessageSignature.empty
    signaturesRequired := none }

/-- SpendingCondition.singleSig (src/src/authorization.ts lines 108-116). -/
def SpendingCondition.singleSig (c : SpendingCondition) : Bool :=
  c.addressHashMode == serializeP2PKH || c.addressHashMode == serializeP2WPKH

/-- SpendingCondition.makeSigHashPreSign (src/src/authorization.ts lines
118-139): appends the authType byte and the 8-byte big-endian feeRate and
nonce to the current sighash, rejects material longer than 49 bytes, and
hashes the material. -/
def SpendingCondition.makeSigHashPreSign (curSigHash : List Nat)
    (authType feeRate nonce : Nat) : Except CodeError (List Nat) :=
  let hashLength := 32 + 1 + 8 + 8
  let sigHash := curSigHash ++ [authType] ++ bigIntToBytes feeRate 8
    ++ bigIntToBytes nonce 8
  if sigHash.length > hashLength then .error .invalidSigHashLength
  else .ok (hash32 sigHash)

/-- SpendingCondition.makeSigHashPostSign (src/src/authorization.ts lines
141-160): appends the public key encoding flag and the signature bytes (the
toString of the MessageSignature, modelled as its byte list) to the presign
hash, rejects material longer than 98 bytes, and hashes the material. -/
def SpendingCondition.makeSigHashPostSign (curSigHash publicKey sigBytes : List Nat) :
    Except CodeError (List Nat) :=
  let hashLength := 32 + 1 + recoverableEcdsaSigLengthBytes
  let pubKeyEncoding := if publicKeyCompressed publicKey then
    pubKeyEncodingCompressed else pubKeyEncodingUncompressed
  let sigHash := curSigHash ++ [pubKeyEncoding] ++ sigBytes
  if sigHash.length > hashLength then .error .invalidSigHashLength
  else .ok (hash32 sigHash)

/-- SpendingCondition.nextSignature (src/src/authorization.ts lines
162-181): the atomic chain step — presign hash, external signature, postsign
hash. -/
def SpendingCondition.nextSignature (curSigHash : List Nat)
    (authType feeRate nonce : Nat) (privateKey : List Nat) :
    Except CodeError (List Nat × List Nat) :=
  match SpendingCondition.makeSigHashPreSign curSigHash authType feeRate nonce with
  | .error e => .error e
  | .ok sigHashPreSign =>
    let signature := privateKeySign privateKey sigHashPreSign
    match SpendingCondition.makeSigHashPostSign sigHashPreSign
        (getPublicKey privateKey) signature with
    | .error e => .error e
    | .ok nextSigHash => .ok (signature, nextSigHash)

/-- numSignatures with the dynamic dispatch made explicit through the kind
tag: the base class and the empty multi-signature subclass return 0
(src lines 183-185), the single-signature subclass compares the slot with
the empty sentinel (src lines 240-242). -/
def SpendingCondition.numSignatures (c : SpendingCondition) : Nat :=
  match c.kind with
  | .singleSig => if c.signature = MessageSignature.empty then 0 else 1
  | _ => 0

/-- SpendingCondition.serialize (src/src/authorization.ts lines 187-207):
mode byte, 20-byte address hash, 8-byte nonce and feeRate; then, for the two
single-key modes only, the encoding byte and the 65-byte signature. The
multi-signature modes append nothing further. Encoding an undefined field
would make the runtime throw, modelled as none. -/
def SpendingCondition.serialize (c : SpendingCondition) : Option (List Nat) :=
  let head := [c.addressHashMode] ++ c.signerAddress.data
    ++ bigIntToBytes c.nonce 8 ++ bigIntToBytes c.feeRate 8
  if c.addressHashMode = serializeP2PKH ∨ c.addressHashMode = serializeP2WPKH then
    match c.pubKeyEncoding, c.signature.signature with
    | some e, some s => some (head ++ [e] ++ s)
    | _, _ => none
  else
    some head

/-- SpendingCondition.deserialize (src/src/authorization.ts lines 209-226):
reads the mode byte without validation, then the 20-byte address hash and the
8-byte nonce and feeRate; for the two single-key modes it also reads the
encoding byte and the 65-byte signature, for every other mode byte it stops
there, leaving those fields unset. -/
def SpendingCondition.deserialize (input : List Nat) :
    Option (SpendingCondition × List Nat) :=
  (readBytes 1 input).bind fun p1 =>
  (readBytes 20 p1.2).bind fun p2 =>
  (readBytes 8 p2.2).bind fun p3 =>
  (readBytes 8 p3.2).bind fun p4 =>
  let mode := p1.1.headD 0
  if mode = serializeP2PKH ∨ mode = serializeP2WPKH then
    (readBytes 1 p4.2).bind fun p5 =>
    (MessageSignature.deserialize p5.2).map fun p6 =>
      ({ kind := .base, addressHashMode := mode,
         signerAddress := Address.fromData 0 p2.1,
         nonce := bytesToBigInt p3.1, feeRate := bytesToBigInt p4.1,
         pubKeyEncoding := some (p5.1.headD 0), signature := p6.1,
         signaturesRequired := none }, p6.2)
  else
    some ({ kind := .base, addressHashMode := mode,
            signerAddress := Address.fromData 0 p2.1,
            nonce := bytesToBigInt p3.1, feeRate := bytesToBigInt p4.1,
            pubKeyEncoding := none, signature := { signature := none },
            signaturesRequired := none }, p4.2)

/-- The SingleSigSpendingCondition constructor (src/src/authorization.ts
lines 229-238): the base constructor followed by fixing the threshold at
one. -/
def SingleSigSpendingCondition.make (addressHashMode : Nat) (pubKey : List Nat)
    (nonce feeRate : Nat) : SpendingCondition :=
  { SpendingCondition.make addressHashMode pubKey nonce feeRate with
      kind := .singleSig, signaturesRequired := some 1 }

/-- The authorization record (src/src/authorization.ts lines 249-257) for
the modelled case in which both constructor arguments are supplied. -/
structure Authorization where
  authType : Nat
  spendingCondition : SpendingCondition
  deriving DecidableEq

/-- Authorization.serialize (src/src/authorization.ts lines 263-277): the
authType byte, then the spending condition for the Standard case only; the
Sponsored case (and any other tag) appends nothing further. -/
def Authorization.serialize (a : Authorization) : Option (List Nat) :=
  if a.authType = authTypeStandard then
    (a.spendingCondition.serialize).map fun bs => a.authType :: bs
  else
    some [a.authType]

/-- Modelled from the spec: the surrounding StacksTransaction
(transaction.ts is outside the reviewed slice) as the signing session needs
it — the authorization it carries and the pre-authorization hash that
signBegin returns. -/
structure StacksTransaction where
  auth : Authorization
  initialSigHash : List Nat
  deriving DecidableEq

/-- Modelled from the spec: StacksTransaction.signBegin (transaction.ts is
outside the reviewed slice) returns the pre-authorization hash the session
starts from. -/
def StacksTransaction.signBegin (tx : StacksTransaction) : List Nat :=
  tx.initialSigHash

/-- Modelled from the spec: StacksTransaction.signNextOrigin
(transaction.ts is outside the reviewed slice) — runs the chain step
(SpendingCondition.nextSignature, src lines 162-181) on the origin condition
with the given sighash and the feeRate and nonce of that condition, stores
the produced signature in the condition, and returns the next sighash. -/
def StacksTransaction.signNextOrigin (tx : StacksTransaction)
    (sigHash privateKey : List Nat) :
    Except CodeError (StacksTransaction × List Nat) :=
  match SpendingCondition.nextSignature sigHash tx.auth.authType
      tx.auth.spendingCondition.feeRate tx.auth.spendingCondition.nonce privateKey with
  | .error e => .error e
  | .ok (sig, nextSigHash) =>
    .ok ({ tx with auth := { tx.auth with
        spendingCondition := { tx.auth.spendingCondition with
          signature := { signature := some sig } } } }, nextSigHash)

/-- The signing-session record (src/src/signer.ts lines 13-18). -/
structure TransactionSigner where
  transaction : StacksTransaction
  sigHash : List Nat
  originDone : Bool
  checkOversign : Bool
  checkOverlap : Bool
  deriving DecidableEq

/-- The TransactionSigner constructor (src/src/signer.ts lines 20-28). -/
def TransactionSigner.make (transaction : StacksTransaction) : TransactionSigner :=
  { transaction
    sigHash := transaction.signBegin
    originDone := false
    checkOversign := true
    checkOverlap := true }

/-- The oversign-guard comparison of src/src/signer.ts lines 35-36,
numSignatures at least signaturesRequired; when signaturesRequired is
undefined the JavaScript comparison is false. -/
def SpendingCondition.thresholdReached (c : SpendingCondition) : Bool :=
  match c.signaturesRequired with
  | some r => decide (r ≤ c.numSignatures)
  | none => false

/-- TransactionSigner.signOrigin (src/src/signer.ts lines 30-42): the
overlap guard, then the oversign guard, then the chain step through the
transaction, updating the session sighash. -/
def TransactionSigner.signOrigin (s : TransactionSigner) (privateKey : List Nat) :
    Except CodeError TransactionSigner :=
  if s.checkOverlap && s.originDone then .error .overlapSign
  else if s.checkOversign && s.transaction.auth.spendingCondition.thresholdReached then
    .error .oversign
  else
    match s.transaction.signNextOrigin s.sigHash privateKey with
    | .error e => .error e
    | .ok (tx, nextSigHash) => .ok { s with transaction := tx, sigHash := nextSigHash }

/-- The session states reachable through the operations the code provides:
construction (src/src/signer.ts lines 20-28) and signOrigin (lines 30-42),
which are the only members of the class. -/
inductive TransactionSigner.Reachable : TransactionSigner → Prop
  | init (tx : StacksTransaction) :
      TransactionSigner.Reachable (TransactionSigner.make tx)
  | step (s s' : TransactionSigner) (privateKey : List Nat) :
      TransactionSigner.Reachable s → s.signOrigin privateKey = .ok s' →
      TransactionSigner.Reachable s'

/-- Field-for-field comparison over the fields the round-trip law names:
addressHashMode, signerAddress, nonce, feeRate, pubKeyEncoding,
signature. -/
def condFieldsEq (a b : SpendingCondition) : Bool :=
  decide (a.addressHashMode = b.addressHashMode) &&
  decide (a.signerAddress = b.signerAddress) &&
  decide (a.nonce = b.nonce) && decide (a.feeRate = b.feeRate) &&
  decide (a.pubKeyEncoding = b.pubKeyEncoding) &&
  decide (a.signature = b.signature)

/-! ## Basic facts about the byte-level encoders -/

theorem bigIntToBytes_length (n w : Nat) : (bigIntToBytes n w).length = w := by
  induction w generalizing n with
  | zero => rfl
  | succ w ih => simp [bigIntToBytes, ih]

theorem hash32_length (input : List Nat) : (hash32 input).length = 32 := by
  simp [hash32]

theorem bytesToBigInt_append_single (xs : List Nat) (b : Nat) :
    bytesToBigInt (xs ++ [b]) = bytesToBigInt xs * 256 + b := by
  simp [bytesToBigInt, List.foldl_append]

theorem bytesToBigInt_bigIntToBytes (w n : Nat) (h : n < 256 ^ w) :
    bytesToBigInt (bigIntToBytes n w) = n := by
  induction w generalizing n with
  | zero =>
    simp only [pow_zero] at h
    interval_cases n
    rfl
  | succ w ih =>
    have hdiv : n / 256 < 256 ^ w := by
      rw [pow_succ] at h
      omega
    rw [bigIntToBytes, bytesToBigInt_append_single, ih _ hdiv]
    omega

theorem readBytes_eq (n : Nat) (input : List Nat) (h : n ≤ input.length) :
    readBytes n input = some (input.take n, input.drop n) := by
  unfold readBytes
  rw [if_pos h]

theorem readBytes_append (n : Nat) (xs ys : List Nat) (h : xs.length = n) :
    readBytes n (xs ++ ys) = some (xs, ys) := by
  subst h
  rw [readBytes_eq _ _ (by simp)]
  rw [List.take_left, List.drop_left]

theorem readBytes_all (n : Nat) (xs : List Nat) (h : xs.length = n) :
    readBytes n xs = some (xs, []) := by
  subst h
  rw [readBytes_eq _ _ (le_refl _)]
  simp

/-! ## Claim C1 -/

/-- Claim C1: for every 32-byte current sighash, authType byte and feeRate
and nonce expressible as unsigned 64-bit values, makeSigHashPreSign returns
the output of the external hash primitive applied to exactly the 49-byte
concatenation of the current hash, the authType byte, the 8-byte big-endian
feeRate and the 8-byte big-endian nonce, and the output is 32 bytes. The
embedding is a pure function, so the result is deterministic for identical
inputs. -/
theorem c1_makeSigHashPreSign_exact (curSigHash : List Nat)
    (authType feeRate nonce : Nat) (hcur : curSigHash.length = 32)
    (hfee : feeRate < 2 ^ 64) (hnonce : nonce < 2 ^ 64) :
    SpendingCondition.makeSigHashPreSign curSigHash authType feeRate nonce =
      .ok (hash32 (curSigHash ++ [authType] ++ bigIntToBytes feeRate 8
        ++ bigIntToBytes nonce 8)) ∧
    (curSigHash ++ [authType] ++ bigIntToBytes feeRate 8
      ++ bigIntToBytes nonce 8).length = 49 ∧
    (hash32 (curSigHash ++ [authType] ++ bigIntToBytes feeRate 8
      ++ bigIntToBytes nonce 8)).length = 32 := by
  have hlen : (curSigHash ++ [authType] ++ bigIntToBytes feeRate 8
      ++ bigIntToBytes nonce 8).length = 49 := by
    simp [hcur, bigIntToBytes_length]
  refine ⟨?_, hlen, hash32_length _⟩
  unfold SpendingCondition.makeSigHashPreSign
  rw [if_neg (by omega)]

/-- Claim C1 witness: the scenario of the spec, a 32-byte starting hash with
authType 4, feeRate 180 and nonce 0. -/
theorem c1_makeSigHashPreSign_exact_witness :
    (List.replicate 32 17).length = 32 ∧ (180 : Nat) < 2 ^ 64 ∧ (0 : Nat) < 2 ^ 64 ∧
    (SpendingCondition.makeSigHashPreSign (List.replicate 32 17) 4 180 0 =
      .ok (hash32 (List.replicate 32 17 ++ [4] ++ bigIntToBytes 180 8
        ++ bigIntToBytes 0 8)) ∧
    (List.replicate 32 17 ++ [4] ++ bigIntToBytes 180 8
      ++ bigIntToBytes 0 8).length = 49 ∧
    (hash32 (List.replicate 32 17 ++ [4] ++ bigIntToBytes 180 8
      ++ bigIntToBytes 0 8)).length = 32) :=
  ⟨by decide, by norm_num, by norm_num,
    c1_makeSigHashPreSign_exact _ _ _ _ (by decide) (by norm_num) (by norm_num)⟩

/-! ## Claim C2 -/

/-- Claim C2 counterexample: with a 31-byte current sighash the pre-hash
material is 48 bytes, not 49, yet makeSigHashPreSign hashes the short
material instead of failing — the length guard in the source rejects only
material longer than 49 bytes. -/
theorem c2_short_material_hashed :
    SpendingCondition.makeSigHashPreSign (List.replicate 31 0) 4 0 0 =
      .ok (hash32 (List.replicate 31 0 ++ [4] ++ bigIntToBytes 0 8
        ++ bigIntToBytes 0 8)) ∧
    (List.replicate 31 0 ++ [4] ++ bigIntToBytes 0 8
      ++ bigIntToBytes 0 8).length = 48 :=
  ⟨rfl, rfl⟩

/-- Claim C2 (amended): makeSigHashPreSign fails with the encoding length
error exactly when the pre-hash material is longer than 49 bytes; material
of 49 bytes or fewer — for example from a current sighash shorter than 32
bytes — is hashed rather than rejected. -/
theorem c2_error_iff_longer (curSigHash : List Nat) (authType feeRate nonce : Nat) :
    SpendingCondition.makeSigHashPreSign curSigHash authType feeRate nonce =
      .error .invalidSigHashLength ↔
    49 < (curSigHash ++ [authType] ++ bigIntToBytes feeRate 8
      ++ bigIntToBytes nonce 8).length := by
  unfold SpendingCondition.makeSigHashPreSign
  constructor
  · intro h
    by_contra hle
    rw [if_neg (by omega)] at h
    exact Except.noConfusion h
  · intro h
    rw [if_pos (by omega)]

/-! ## Claim C3 -/

theorem deserialize_singleSig_layout (m : Nat) (d n8 f8 s : List Nat) (e : Nat)
    (hm : m = serializeP2PKH ∨ m = serializeP2WPKH) (hd : d.length = 20)
    (hn : n8.length = 8) (hf : f8.length = 8)
    (hs : s.length = recoverableEcdsaSigLengthBytes) :
    SpendingCondition.deserialize ([m] ++ (d ++ (n8 ++ (f8 ++ ([e] ++ s))))) =
      some ({ kind := .base, addressHashMode := m,
              signerAddress := Address.fromData 0 d,
              nonce := bytesToBigInt n8, feeRate := bytesToBigInt f8,
              pubKeyEncoding := some e, signature := { signature := some s },
              signaturesRequired := none }, []) := by
  have e1 : readBytes 1 ([m] ++ (d ++ (n8 ++ (f8 ++ ([e] ++ s))))) =
      some ([m], d ++ (n8 ++ (f8 ++ ([e] ++ s)))) := readBytes_append _ _ _ rfl
  have e2 : readBytes 20 (d ++ (n8 ++ (f8 ++ ([e] ++ s)))) =
      some (d, n8 ++ (f8 ++ ([e] ++ s))) := readBytes_append _ _ _ hd
  have e3 : readBytes 8 (n8 ++ (f8 ++ ([e] ++ s))) =
      some (n8, f8 ++ ([e] ++ s)) := readBytes_append _ _ _ hn
  have e4 : readBytes 8 (f8 ++ ([e] ++ s)) =
      some (f8, [e] ++ s) := readBytes_append _ _ _ hf
  have e5 : readBytes 1 ([e] ++ s) = some ([e], s) := readBytes_append _ _ _ rfl
  have e6 : readBytes recoverableEcdsaSigLengthBytes s = some (s, []) :=
    readBytes_all _ _ hs
  simp only [SpendingCondition.deserialize, MessageSignature.deserialize,
    e1, e2, e3, e4, e5, e6, Option.bind, Option.map, List.headD]
  simp [hm]

/-- Claim C3 counterexample input: a spending condition carrying the P2SH
multi-signature address mode (the constructor of the source accepts any
mode byte). -/
def p2shCondition : SpendingCondition :=
  SingleSigSpendingCondition.make serializeP2SH (2 :: List.replicate 32 7) 0 0

/-- Claim C3 counterexample: for a condition with the P2SH address mode the
round-trip is lossy — serialize emits only the 37-byte common prefix and
deserialize leaves pubKeyEncoding and the signature slot unset — so the
decoded value is not field-for-field equal to the encoded one. -/
theorem c3_p2sh_roundtrip_lossy :
    (p2shCondition.serialize.bind fun bs =>
      (SpendingCondition.deserialize bs).map fun p => condFieldsEq p2shCondition p.1)
      = some false := by
  rfl

/-- Claim C3 (amended): the round-trip law holds for the two single-key
address modes, P2PKH and P2WPKH, on conditions whose nonce and feeRate fit
in 8 bytes, whose signer address is a version-0 address with a 20-byte hash,
and whose pubKeyEncoding and 65-byte signature are present; for the P2SH and
P2WSH modes the serializer emits neither pubKeyEncoding nor signature and
the round-trip loses those fields. -/
theorem c3_roundtrip_singleKey (c : SpendingCondition) (e : Nat) (s : List Nat)
    (hmode : c.addressHashMode = serializeP2PKH ∨ c.addressHashMode = serializeP2WPKH)
    (hnonce : c.nonce < 2 ^ 64) (hfee : c.feeRate < 2 ^ 64)
    (hver : c.signerAddress.version = 0) (hdata : c.signerAddress.data.length = 20)
    (henc : c.pubKeyEncoding = some e) (hsig : c.signature.signature = some s)
    (hslen : s.length = recoverableEcdsaSigLengthBytes) :
    ∃ bs c2, c.serialize = some bs ∧
      SpendingCondition.deserialize bs = some (c2, []) ∧
      condFieldsEq c c2 = true := by
  obtain ⟨k, m, ⟨v, dd⟩, nn, fr, pe, ⟨sg⟩, sr⟩ := c
  simp only at hmode hnonce hfee hver hdata henc hsig
  subst henc hsig hver
  have hser : SpendingCondition.serialize
      ⟨k, m, ⟨0, dd⟩, nn, fr, some e, ⟨some s⟩, sr⟩ =
      some ([m] ++ (dd ++ (bigIntToBytes nn 8 ++ (bigIntToBytes fr 8 ++ ([e] ++ s))))) := by
    unfold SpendingCondition.serialize
    rw [if_pos hmode]
    simp [List.append_assoc]
  have hdes := deserialize_singleSig_layout m dd (bigIntToBytes nn 8)
    (bigIntToBytes fr 8) s e hmode hdata (bigIntToBytes_length _ _)
    (bigIntToBytes_length _ _) hslen
  refine ⟨_, _, hser, hdes, ?_⟩
  have hn2 : nn < 256 ^ 8 := lt_of_lt_of_eq hnonce (by norm_num)
  have hf2 : fr < 256 ^ 8 := lt_of_lt_of_eq hfee (by norm_num)
  simp [condFieldsEq, Address.fromData,
    bytesToBigInt_bigIntToBytes 8 nn hn2, bytesToBigInt_bigIntToBytes 8 fr hf2]

/-- Claim C3 witness for the amended round-trip: a concrete fresh P2PKH
single-signature condition with its sentinel signature. -/
theorem c3_roundtrip_singleKey_witness :
    ((SingleSigSpendingCondition.make serializeP2PKH (2 :: List.replicate 32 7) 3 180).addressHashMode
        = serializeP2PKH ∨
      (SingleSigSpendingCondition.make serializeP2PKH (2 :: List.replicate 32 7) 3 180).addressHashMode
        = serializeP2WPKH) ∧
    (∃ bs c2,
      (SingleSigSpendingCondition.make serializeP2PKH (2 :: List.replicate 32 7) 3 180).serialize
        = some bs ∧
      SpendingCondition.deserialize bs = some (c2, []) ∧
      condFieldsEq (SingleSigSpendingCondition.make serializeP2PKH (2 :: List.replicate 32 7) 3 180) c2
        = true) :=
  ⟨Or.inl rfl,
    c3_roundtrip_singleKey _ pubKeyEncodingCompressed
      (List.replicate recoverableEcdsaSigLengthBytes 0) (Or.inl rfl)
      (by decide) (by decide) rfl (by decide) rfl rfl (by decide)⟩

/-! ## Claim C4 -/

/-- Claim C4 counterexample: a buffer whose first byte 255 matches no
defined addressHashMode value is decoded without any error and with 37 bytes
consumed (the byte itself plus the 36-byte common tail), not just the first
byte, leaving 4 of the 41 input bytes. -/
theorem c4_unknown_mode_accepted :
    ((SpendingCondition.deserialize (255 :: List.replicate 40 7)).map
      fun p => (p.1.addressHashMode, p.2.length)) = some (255, 4) := by
  rfl

/-- Claim C4 (amended): deserialize performs no validation of the
addressHashMode byte — no UnknownAddressHashMode error exists in the source.
A first byte matching none of the four defined mode values is stored as-is
and decoding continues: the 37-byte common prefix (mode, 20-byte address
hash, 8-byte nonce, 8-byte feeRate) is consumed and the remaining fields are
left unset. -/
theorem c4_unknown_mode_no_error (mode : Nat) (body : List Nat)
    (hm0 : mode ≠ serializeP2PKH) (hm1 : mode ≠ serializeP2SH)
    (hm2 : mode ≠ serializeP2WPKH) (hm3 : mode ≠ serializeP2WSH)
    (hlen : 36 ≤ body.length) :
    SpendingCondition.deserialize (mode :: body) =
      some ({ kind := .base, addressHashMode := mode,
              signerAddress := Address.fromData 0 (body.take 20),
              nonce := bytesToBigInt ((body.drop 20).take 8),
              feeRate := bytesToBigInt (((body.drop 20).drop 8).take 8),
              pubKeyEncoding := none, signature := { signature := none },
              signaturesRequired := none }, body.drop 36) := by
  have e1 : readBytes 1 (mode :: body) = some ([mode], body) :=
    readBytes_append 1 [mode] body rfl
  have e2 : readBytes 20 body = some (body.take 20, body.drop 20) :=
    readBytes_eq _ _ (by omega)
  have e3 : readBytes 8 (body.drop 20) =
      some ((body.drop 20).take 8, (body.drop 20).drop 8) :=
    readBytes_eq _ _ (by rw [List.length_drop]; omega)
  have e4 : readBytes 8 ((body.drop 20).drop 8) =
      some (((body.drop 20).drop 8).take 8, ((body.drop 20).drop 8).drop 8) :=
    readBytes_eq _ _ (by rw [List.length_drop, List.length_drop]; omega)
  simp only [SpendingCondition.deserialize, e1, e2, e3, e4, Option.bind,
    List.headD]
  rw [if_neg (by rintro (h | h) <;> [exact hm0 h; exact hm2 h])]
  simp [List.drop_drop]

/-- Claim C4 witness for the amended statement: the concrete unknown mode
byte 255 followed by 40 filler bytes. -/
theorem c4_unknown_mode_no_error_witness :
    (255 : Nat) ≠ serializeP2PKH ∧ (255 : Nat) ≠ serializeP2SH ∧
    (255 : Nat) ≠ serializeP2WPKH ∧ (255 : Nat) ≠ serializeP2WSH ∧
    36 ≤ (List.replicate 40 7).length ∧
    SpendingCondition.deserialize (255 :: List.replicate 40 7) =
      some ({ kind := .base, addressHashMode := 255,
              signerAddress := Address.fromData 0 ((List.replicate 40 7).take 20),
              nonce := bytesToBigInt (((List.replicate 40 7).drop 20).take 8),
              feeRate := bytesToBigInt ((((List.replicate 40 7).drop 20).drop 8).take 8),
              pubKeyEncoding := none, signature := { signature := none },
              signaturesRequired := none }, (List.replicate 40 7).drop 36) :=
  ⟨by decide, by decide, by decide, by decide, by decide,
    c4_unknown_mode_no_error 255 (List.replicate 40 7) (by decide) (by decide)
      (by decide) (by decide) (by decide)⟩

/-! ## Claim C5 -/

/-- Claim C5 counterexample: serializing a spending condition with the P2SH
multi-signature mode raises nothing and returns a truncated 37-byte
encoding, and serializing a Sponsored authorization raises nothing and
returns only the 1-byte authType — no Unimplemented error exists in the
source. -/
theorem c5_stub_paths_silent :
    (p2shCondition.serialize.map List.length) = some 37 ∧
    (Authorization.mk authTypeSponsored p2shCondition).serialize =
      some [authTypeSponsored] := by
  exact ⟨rfl, rfl⟩

/-- Claim C5 (amended): the not-yet-completed paths do not raise anything —
serializing a condition with a multi-signature mode (P2SH or P2WSH)
silently returns only the 37-byte common prefix, omitting the
pubKeyEncoding and signature fields, and serializing a Sponsored
authorization silently returns only the 1-byte authType, omitting the
spending condition entirely. -/
theorem c5_stub_paths_truncated (c : SpendingCondition) (a : Authorization)
    (hc : c.addressHashMode = serializeP2SH ∨ c.addressHashMode = serializeP2WSH)
    (ha : a.authType = authTypeSponsored) :
    c.serialize = some ([c.addressHashMode] ++ c.signerAddress.data
      ++ bigIntToBytes c.nonce 8 ++ bigIntToBytes c.feeRate 8) ∧
    a.serialize = some [a.authType] := by
  constructor
  · unfold SpendingCondition.serialize
    rcases hc with h | h <;> rw [h, if_neg (by decide)]
  · unfold Authorization.serialize
    rw [ha, if_neg (by decide)]

/-- Claim C5 witness: the concrete P2SH condition and a Sponsored
authorization wrapping it. -/
theorem c5_stub_paths_truncated_witness :
    (p2shCondition.addressHashMode = serializeP2SH ∨
      p2shCondition.addressHashMode = serializeP2WSH) ∧
    (Authorization.mk authTypeSponsored p2shCondition).authType = authTypeSponsored ∧
    (p2shCondition.serialize = some ([p2shCondition.addressHashMode]
        ++ p2shCondition.signerAddress.data
        ++ bigIntToBytes p2shCondition.nonce 8
        ++ bigIntToBytes p2shCondition.feeRate 8) ∧
      (Authorization.mk authTypeSponsored p2shCondition).serialize =
        some [(Authorization.mk authTypeSponsored p2shCondition).authType]) :=
  ⟨Or.inl rfl, rfl,
    c5_stub_paths_truncated p2shCondition
      (Authorization.mk authTypeSponsored p2shCondition) (Or.inl rfl) rfl⟩

/-! ## Claim C7 -/

/-- Claim C7: a freshly constructed single-signature spending condition has
signaturesRequired fixed at 1 and zero signatures, and for every
single-signature condition numSignatures is 0 when the signature slot holds
the 65-byte all-zero sentinel and 1 when it differs from it. -/
theorem c7_singleSig_numSignatures (mode : Nat) (pubKey : List Nat)
    (nonce feeRate : Nat) (c : SpendingCondition)
    (hk : c.kind = CondKind.singleSig) :
    (SingleSigSpendingCondition.make mode pubKey nonce feeRate).signaturesRequired
      = some 1 ∧
    (SingleSigSpendingCondition.make mode pubKey nonce feeRate).numSignatures = 0 ∧
    c.numSignatures = (if c.signature = MessageSignature.empty then 0 else 1) := by
  refine ⟨rfl, ?_, ?_⟩
  · simp [SingleSigSpendingCondition.make, SpendingCondition.make,
      SpendingCondition.numSignatures]
  · unfold SpendingCondition.numSignatures
    rw [hk]

/-- Claim C7 witness: a concrete fresh single-signature condition. -/
theorem c7_singleSig_numSignatures_witness :
    (SingleSigSpendingCondition.make 0 [2] 0 0).kind = CondKind.singleSig ∧
    ((SingleSigSpendingCondition.make 0 [2] 0 0).signaturesRequired = some 1 ∧
    (SingleSigSpendingCondition.make 0 [2] 0 0).numSignatures = 0 ∧
    (SingleSigSpendingCondition.make 0 [2] 0 0).numSignatures =
      (if (SingleSigSpendingCondition.make 0 [2] 0 0).signature =
        MessageSignature.empty then 0 else 1)) :=
  ⟨rfl, c7_singleSig_numSignatures 0 [2] 0 0
    (SingleSigSpendingCondition.make 0 [2] 0 0) rfl⟩

/-! ## The signing session: claims C6 and C9 -/

theorem makeSigHashPreSign_error_eq (cur : List Nat) (a f n : Nat) (e : CodeError)
    (h : SpendingCondition.makeSigHashPreSign cur a f n = .error e) :
    e = CodeError.invalidSigHashLength := by
  unfold SpendingCondition.makeSigHashPreSign at h
  dsimp only at h
  split at h
  · injection h with h
    exact h.symm
  · exact Except.noConfusion h

theorem makeSigHashPostSign_error_eq (cur pub sig : List Nat) (e : CodeError)
    (h : SpendingCondition.makeSigHashPostSign cur pub sig = .error e) :
    e = CodeError.invalidSigHashLength := by
  unfold SpendingCondition.makeSigHashPostSign at h
  dsimp only at h
  split at h <;> split at h
  · injection h with h
    exact h.symm
  · exact Except.noConfusion h
  · injection h with h
    exact h.symm
  · exact Except.noConfusion h

theorem nextSignature_error_eq (cur : List Nat) (a f n : Nat) (pk : List Nat)
    (e : CodeError) (h : SpendingCondition.nextSignature cur a f n pk = .error e) :
    e = CodeError.invalidSigHashLength := by
  unfold SpendingCondition.nextSignature at h
  split at h
  · rename_i e1 heq
    injection h with h2
    exact h2 ▸ makeSigHashPreSign_error_eq _ _ _ _ _ heq
  · rename_i pre heq
    dsimp only at h
    split at h
    · rename_i e2 heq2
      injection h with h2
      exact h2 ▸ makeSigHashPostSign_error_eq _ _ _ _ heq2
    · exact Except.noConfusion h

theorem signNextOrigin_error_eq (tx : StacksTransaction) (sh pk : List Nat)
    (e : CodeError) (h : tx.signNextOrigin sh pk = .error e) :
    e = CodeError.invalidSigHashLength := by
  unfold StacksTransaction.signNextOrigin at h
  split at h
  · rename_i e1 heq
    injection h with h2
    exact h2 ▸ nextSignature_error_eq _ _ _ _ _ _ heq
  · exact Except.noConfusion h

theorem signOrigin_ok_originDone (s s' : TransactionSigner) (pk : List Nat)
    (h : s.signOrigin pk = .ok s') : s'.originDone = s.originDone := by
  unfold TransactionSigner.signOrigin at h
  split at h
  · exact Except.noConfusion h
  · split at h
    · exact Except.noConfusion h
    · split at h
      · exact Except.noConfusion h
      · injection h with h
        subst h
        rfl

theorem reachable_originDone_false (s : TransactionSigner)
    (h : TransactionSigner.Reachable s) : s.originDone = false := by
  induction h with
  | init tx => rfl
  | step s s' pk hr hok ih =>
    rw [signOrigin_ok_originDone s s' pk hok]
    exact ih

/-- Claim C6: for every signing session reachable through the operations the
code provides, with the oversign check on and the origin condition already
at its signature threshold, signOrigin fails with the oversign error — the
chain step is never invoked and the session is unchanged (every reachable
session has originDone false, so the overlap guard cannot preempt the
oversign guard). -/
theorem c6_oversign_guard (s : TransactionSigner) (privateKey : List Nat)
    (hr : TransactionSigner.Reachable s) (hc : s.checkOversign = true)
    (ht : s.transaction.auth.spendingCondition.thresholdReached = true) :
    s.signOrigin privateKey = .error .oversign := by
  have hod : s.originDone = false := reachable_originDone_false s hr
  unfold TransactionSigner.signOrigin
  rw [if_neg (by simp [hod]), if_pos (by simp [hc, ht])]

/-- Concrete transaction for witnesses: a Standard authorization over a
fresh P2PKH single-signature condition, with an all-zero 32-byte starting
hash. -/
def demoTx : StacksTransaction :=
  { auth := { authType := authTypeStandard,
              spendingCondition :=
                SingleSigSpendingCondition.make serializeP2PKH
                  (2 :: List.replicate 32 5) 0 0 },
    initialSigHash := List.replicate 32 0 }

/-- Concrete private key for witnesses. -/
def demoKey : List Nat := List.replicate 32 9

/-- The session after one successful signOrigin on demoTx; the fallback arm
is never taken, as the first conjunct of the C6 witness shows. -/
def demoSigner1 : TransactionSigner :=
  match (TransactionSigner.make demoTx).signOrigin demoKey with
  | .ok s => s
  | .error _ => TransactionSigner.make demoTx

/-- Claim C6 witness: after one successful signOrigin on a fresh session for
a single-signature condition with threshold 1, the threshold is reached and
a second signOrigin fails with the oversign error. -/
theorem c6_oversign_guard_witness :
    (TransactionSigner.make demoTx).signOrigin demoKey = .ok demoSigner1 ∧
    TransactionSigner.Reachable demoSigner1 ∧
    demoSigner1.checkOversign = true ∧
    demoSigner1.transaction.auth.spendingCondition.thresholdReached = true ∧
    demoSigner1.signOrigin demoKey = .error .oversign := by
  have hstep : (TransactionSigner.make demoTx).signOrigin demoKey = .ok demoSigner1 := by
    rfl
  have hr : TransactionSigner.Reachable demoSigner1 :=
    TransactionSigner.Reachable.step _ _ _
      (TransactionSigner.Reachable.init demoTx) hstep
  exact ⟨hstep, hr, rfl, rfl, c6_oversign_guard demoSigner1 demoKey hr rfl rfl⟩

/-- Claim C9: the originDone flag is false at construction and stays false
through every sequence of the operations the code provides, so signOrigin
never fails with the overlap error from any reachable session state — the
overlap branch is dead code. -/
theorem c9_overlap_unreachable (s : TransactionSigner) (privateKey : List Nat)
    (hr : TransactionSigner.Reachable s) :
    s.originDone = false ∧ s.signOrigin privateKey ≠ .error .overlapSign := by
  have hod := reachable_originDone_false s hr
  refine ⟨hod, ?_⟩
  unfold TransactionSigner.signOrigin
  rw [if_neg (by simp [hod])]
  split
  · intro h
    injection h with h
    exact CodeError.noConfusion h
  · split
    · rename_i e heq
      intro h
      injection h with h2
      have h3 := signNextOrigin_error_eq _ _ _ _ heq
      rw [h2] at h3
      exact CodeError.noConfusion h3
    · intro h
      exact Except.noConfusion h

/-- Claim C9 witness: the fresh session over the concrete transaction. -/
theorem c9_overlap_unreachable_witness :
    (TransactionSigner.make demoTx).originDone = false ∧
    (TransactionSigner.make demoTx).signOrigin demoKey ≠ .error .overlapSign :=
  c9_overlap_unreachable (TransactionSigner.make demoTx) demoKey
    (TransactionSigner.Reachable.init demoTx)

/-! ## Claim C10 -/

/-- Claim C10 counterexample: the empty string is a supplied signature
argument whose hex-decoded byte length 0 differs from 65, yet the
constructor does not throw — the JavaScript truthiness check skips the empty
string — and stores the empty value in the field, not the sentinel. -/
theorem c10_empty_string_unchecked :
    MessageSignature.make (some []) = .ok { signature := some [] } ∧
    ([] : List Nat).length ≠ recoverableEcdsaSigLengthBytes :=
  ⟨rfl, by decide⟩

/-- Claim C10 (amended): the constructor throws the invalid-signature error
exactly when a nonempty signature string is supplied whose hex-decoded byte
length differs from 65; an absent argument or the empty string — both falsy
in JavaScript — skip the check entirely, and on success the field holds
exactly the argument given (undefined when absent), the 65-byte all-zero
sentinel being produced only by empty. -/
theorem c10_make_truthy_check (arg : Option (List Nat)) :
    (MessageSignature.make arg = .ok { signature := arg } ∨
      MessageSignature.make arg = .error .invalidSignature) ∧
    (MessageSignature.make arg = .error .invalidSignature ↔
      ∃ s, arg = some s ∧ s ≠ [] ∧
        s.length ≠ recoverableEcdsaSigLengthBytes) ∧
    MessageSignature.empty.signature =
      some (List.replicate recoverableEcdsaSigLengthBytes 0) := by
  refine ⟨?_, ?_, rfl⟩
  · cases arg with
    | none => exact Or.inl rfl
    | some s =>
      by_cases h0 : s = []
      · simp [MessageSignature.make, h0]
      · by_cases h1 : s.length ≠ recoverableEcdsaSigLengthBytes
        · simp [MessageSignature.make, h0, h1]
        · simp [MessageSignature.make, h0, h1]
  · cases arg with
    | none =>
      simp [MessageSignature.make]
    | some s =>
      by_cases h0 : s = []
      · simp [MessageSignature.make, h0]
      · by_cases h1 : s.length ≠ recoverableEcdsaSigLengthBytes
        · simp [MessageSignature.make, h0, h1]
        · simp [MessageSignature.make, h0, h1]

end StacksTx
